import Mathlib

/-!
Verification of the LinguaLens subtitle-explainer core against its
natural-language specification.

The TypeScript sources are shallowly embedded: pure functions become Lean
functions, stateful modules become explicit state passing, JavaScript
numbers holding timestamps and counts are modelled as natural numbers
(or integers where sign matters), fallible operations return Option or
Except.  Each definition is translated from the source file named in its
doc comment.
-/

namespace LinguaLens

/- ===================== JS string primitives ====================== -/

/-- Model of the JavaScript whitespace class used by trim and by the
regular expression in replace calls of the form replace of one-or-more
whitespace.  Modelled by Char.isWhitespace. -/
def isJsWs (c : Char) : Bool := c.isWhitespace

/-- Leading- and trailing-whitespace removal on a character list:
drop whitespace from the front, then from the back. -/
def trimChars (l : List Char) : List Char :=
  ((l.dropWhile isJsWs).reverse.dropWhile isJsWs).reverse

/-- Model of JavaScript String.prototype.trim. -/
def jsTrim (s : String) : String := ⟨trimChars s.data⟩

/-- Model of JavaScript String.prototype.toLowerCase.  JavaScript
lower-cases the full Unicode range; Char.toLower lower-cases the ASCII
letters, which covers every string the claims mention. -/
def jsToLower (s : String) : String := ⟨s.data.map Char.toLower⟩

/-- Helper for collapseWs: the boolean records whether the previous
character was whitespace (so a run collapses to one space). -/
def collapseWsAux : List Char → Bool → List Char
  | [], _ => []
  | c :: rest, prevWs =>
    if isJsWs c then
      if prevWs then collapseWsAux rest true
      else ' ' :: collapseWsAux rest true
    else c :: collapseWsAux rest false

/-- Model of the JavaScript idiom replacing every maximal whitespace run
by a single space (the replace call with a one-or-more whitespace
regular expression and a space replacement), as used by
subtitleDetector.ts before trimming. -/
def collapseWs (s : String) : String := ⟨collapseWsAux s.data false⟩

/-- JS truthiness of an optional string: undefined and the empty string
are falsy. -/
def jsTruthyStr : Option String → Bool
  | none => false
  | some s => s ≠ ""

/- ===================== shared/utils.ts ====================== -/

/-- From shared/utils.ts, computeCacheKey: the profile id (or the
literal "default") followed by a double colon and the trimmed,
lower-cased text. -/
def computeCacheKey (text : String) (profileId : Option String) : String :=
  profileId.getD "default" ++ "::" ++ jsToLower (jsTrim text)

/- ===================== JSON values ====================== -/

mutual

/-- Runtime JSON values, as produced by JSON.parse.  Numbers are
modelled as integers, which covers every payload the specification and
the claims mention. -/
inductive Json where
  | null : Json
  | bool (b : Bool) : Json
  | num (n : Int) : Json
  | str (s : String) : Json
  | arr (items : JsonList) : Json
  | obj (fields : JsonFields) : Json

/-- A JSON array body. -/
inductive JsonList where
  | nil : JsonList
  | cons (hd : Json) (tl : JsonList) : JsonList

/-- A JSON object body: ordered key/value fields. -/
inductive JsonFields where
  | nil : JsonFields
  | cons (key : String) (val : Json) (tl : JsonFields) : JsonFields

end

deriving instance DecidableEq for Json

/-- Look up a field of a JSON object body (first occurrence wins, as in
a JavaScript property read on an object built by JSON.parse, whose keys
are unique). -/
def JsonFields.lookupField : JsonFields → String → Option Json
  | .nil, _ => none
  | .cons k v tl, key => if k = key then some v else tl.lookupField key

/-- Property read on an arbitrary JSON value: objects look up the key,
every other value yields undefined (modelled as none). -/
def Json.getField : Json → String → Option Json
  | .obj fields, key => fields.lookupField key
  | _, _ => none

/-- Does a key occur in a JSON object body? -/
def JsonFields.hasField : JsonFields → String → Bool
  | .nil, _ => false
  | .cons k _ tl, key => k == key || tl.hasField key

/-- Remove every binding of a key from a JSON object body. -/
def JsonFields.removeField : JsonFields → String → JsonFields
  | .nil, _ => .nil
  | .cons k v tl, key =>
    if k = key then tl.removeField key else .cons k v (tl.removeField key)

/-- Set a field of a JSON object body, replacing any previous binding
(models assigning or spreading a property onto an object). -/
def JsonFields.setField (fields : JsonFields) (key : String) (v : Json) :
    JsonFields :=
  .cons key v (fields.removeField key)

/- ===================== JSON.parse model ====================== -/

/-- Skip JSON insignificant whitespace. -/
def skipJsonWs (cs : List Char) : List Char :=
  cs.dropWhile fun c => c == ' ' || c == '\t' || c == '\n' || c == '\r'

/-- Parse the body of a JSON string literal after the opening quote,
handling the escape sequences of the JSON grammar.  Fuel bounds the
recursion by the input length. -/
def parseJsonStringBody : Nat → List Char → Option (String × List Char)
  | 0, _ => none
  | _, [] => none
  | fuel + 1, c :: rest =>
    if c = '"' then some ("", rest)
    else if c = '\\' then
      match rest with
      | [] => none
      | e :: rest2 =>
        let decoded : Option (Char × List Char) :=
          if e = '"' then some ('"', rest2)
          else if e = '\\' then some ('\\', rest2)
          else if e = '/' then some ('/', rest2)
          else if e = 'b' then some ('\x08', rest2)
          else if e = 'f' then some ('\x0c', rest2)
          else if e = 'n' then some ('\n', rest2)
          else if e = 'r' then some ('\r', rest2)
          else if e = 't' then some ('\t', rest2)
          else none
        match decoded with
        | none => none
        | some (ch, rest3) =>
          match parseJsonStringBody fuel rest3 with
          | none => none
          | some (s, rest4) => some (⟨ch :: s.data⟩, rest4)
    else
      match parseJsonStringBody fuel rest with
      | none => none
      | some (s, rest2) => some (⟨c :: s.data⟩, rest2)

/-- Parse a run of decimal digits into a natural number. -/
def parseDigits (cs : List Char) : Option (Nat × List Char) :=
  let digits := cs.takeWhile Char.isDigit
  if digits.isEmpty then none
  else some (digits.foldl (fun acc c => acc * 10 + (c.toNat - 48)) 0,
             cs.dropWhile Char.isDigit)

mutual

/-- Parse one JSON value.  Fuel bounds the nesting depth; jsonParse
supplies fuel no smaller than the input length, which always suffices. -/
def parseJsonValue : Nat → List Char → Option (Json × List Char)
  | 0, _ => none
  | fuel + 1, cs =>
    match skipJsonWs cs with
    | [] => none
    | c :: rest =>
      if c = 'n' then
        match rest with
        | 'u' :: 'l' :: 'l' :: rest2 => some (.null, rest2)
        | _ => none
      else if c = 't' then
        match rest with
        | 'r' :: 'u' :: 'e' :: rest2 => some (.bool true, rest2)
        | _ => none
      else if c = 'f' then
        match rest with
        | 'a' :: 'l' :: 's' :: 'e' :: rest2 => some (.bool false, rest2)
        | _ => none
      else if c = '"' then
        match parseJsonStringBody (rest.length + 1) rest with
        | none => none
        | some (s, rest2) => some (.str s, rest2)
      else if c = '{' then
        match skipJsonWs rest with
        | '}' :: rest2 => some (.obj .nil, rest2)
        | rest2 =>
          match parseJsonMembers fuel rest2 with
          | none => none
          | some (fields, rest3) =>
            match skipJsonWs rest3 with
            | '}' :: rest4 => some (.obj fields, rest4)
            | _ => none
      else if c = '[' then
        match skipJsonWs rest with
        | ']' :: rest2 => some (.arr .nil, rest2)
        | rest2 =>
          match parseJsonElements fuel rest2 with
          | none => none
          | some (items, rest3) =>
            match skipJsonWs rest3 with
            | ']' :: rest4 => some (.arr items, rest4)
            | _ => none
      else if c = '-' then
        match parseDigits rest with
        | none => none
        | some (n, rest2) => some (.num (-(n : Int)), rest2)
      else if c.isDigit then
        match parseDigits (c :: rest) with
        | none => none
        | some (n, rest2) => some (.num (n : Int), rest2)
      else none

/-- Parse the members of a JSON object (at least one). -/
def parseJsonMembers : Nat → List Char → Option (JsonFields × List Char)
  | 0, _ => none
  | fuel + 1, cs =>
    match skipJsonWs cs with
    | '"' :: rest =>
      match parseJsonStringBody (rest.length + 1) rest with
      | none => none
      | some (key, rest2) =>
        match skipJsonWs rest2 with
        | ':' :: rest3 =>
          match parseJsonValue fuel rest3 with
          | none => none
          | some (v, rest4) =>
            match skipJsonWs rest4 with
            | ',' :: rest5 =>
              match parseJsonMembers fuel rest5 with
              | none => none
              | some (fields, rest6) => some (.cons key v fields, rest6)
            | rest5 => some (.cons key v .nil, rest5)
        | _ => none
    | _ => none

/-- Parse the elements of a JSON array (at least one). -/
def parseJsonElements : Nat → List Char → Option (JsonList × List Char)
  | 0, _ => none
  | fuel + 1, cs =>
    match parseJsonValue fuel cs with
    | none => none
    | some (v, rest) =>
      match skipJsonWs rest with
      | ',' :: rest2 =>
        match parseJsonElements fuel rest2 with
        | none => none
        | some (items, rest3) => some (.cons v items, rest3)
      | rest2 => some (.cons v .nil, rest2)

end

/-- Model of JSON.parse: none models a thrown SyntaxError. -/
def jsonParse (s : String) : Option Json :=
  match parseJsonValue (s.length + 1) s.data with
  | none => none
  | some (v, rest) =>
    if skipJsonWs rest = [] then some v else none

/- ===================== shared/types.ts ====================== -/

/-- The languages field of shared/types.ts: a primary language code and
an optional secondary one. -/
structure LanguagePair where
  primary : String
  secondary : Option String
deriving DecidableEq

/-- QuickExplainResponse from shared/types.ts. -/
structure QuickExplainResponse where
  requestId : String
  literal : String
  context : String
  languages : LanguagePair
  detectedAt : Nat
  expiresAt : Nat
deriving DecidableEq

/-- CachedExplainRecord from shared/types.ts.  The deep payload is the
raw JSON value the background decoded from the stream (the code casts
the parsed JSON to DeepExplainResponse without validating its shape, so
the runtime content is an arbitrary JSON value). -/
structure CachedExplainRecord where
  key : String
  quick : Option QuickExplainResponse
  deep : Option Json
  profileId : Option String
  updatedAt : Nat
deriving DecidableEq

/-- ExplainRequestPayload from shared/types.ts (the profile and
profiles enrichment fields are carried separately where needed). -/
structure ExplainRequestPayload where
  requestId : String
  subtitleText : String
  surrounding : Option String
  timestamp : Nat
  profileId : Option String
  languages : LanguagePair
deriving DecidableEq

/- ===================== shared/cacheSettings.ts ====================== -/

/-- CacheSettings from shared/cacheSettings.ts. -/
structure CacheSettings where
  quickTtlMinutes : Nat
  maxEntries : Nat
deriving DecidableEq

/-- DEFAULT_CACHE_SETTINGS from shared/cacheSettings.ts. -/
def DEFAULT_CACHE_SETTINGS : CacheSettings :=
  { quickTtlMinutes := 30, maxEntries := 400 }

/-- A possibly-absent, unvalidated stored settings object, as read from
extension storage.  Fields are integers when present; the value none for
a field models both an absent field and a non-finite number, either of
which fails the isFinite guard of normalizeSettings. -/
structure RawCacheSettings where
  quickTtlMinutes : Option Int
  maxEntries : Option Int
deriving DecidableEq

/-- normalizeSettings from background/cachePolicy.ts: start from the
defaults; accept a stored quickTtlMinutes only when finite and positive,
clamping it to 5..180; accept a stored maxEntries only when finite and
positive, flooring it and clamping to 50..2000. -/
def normalizeSettings (raw : Option RawCacheSettings) : CacheSettings :=
  match raw with
  | none => DEFAULT_CACHE_SETTINGS
  | some r =>
    let ttl : Nat :=
      match r.quickTtlMinutes with
      | some v =>
        if 0 < v then (min (max v 5) 180).toNat
        else DEFAULT_CACHE_SETTINGS.quickTtlMinutes
      | none => DEFAULT_CACHE_SETTINGS.quickTtlMinutes
    let entries : Nat :=
      match r.maxEntries with
      | some v =>
        if 0 < v then (min (max v 50) 2000).toNat
        else DEFAULT_CACHE_SETTINGS.maxEntries
      | none => DEFAULT_CACHE_SETTINGS.maxEntries
    { quickTtlMinutes := ttl, maxEntries := entries }

/- ===================== shared/indexedDb.ts ====================== -/

/-- The records object store of the lingualens IndexedDB database,
modelled as a list whose elements have pairwise distinct keys (the store
uses key as its key path, so puts upsert by key; the list order is
irrelevant to every operation, which either looks up by key or sorts). -/
abbrev RecordStore : Type := List CachedExplainRecord

/-- Primary-key lookup on the records store (db.get). -/
def findRecord (key : String) (store : RecordStore) :
    Option CachedExplainRecord :=
  List.find? (fun rec => rec.key == key) store

/-- writeRecord from shared/indexedDb.ts: db.put upserts the record by
its key — replacing the record with that key when present, appending
otherwise. -/
def writeRecord (store : RecordStore) (r : CachedExplainRecord) :
    RecordStore :=
  if List.any store (fun x => x.key == r.key) then
    List.map (fun x => if x.key == r.key then r else x) store
  else
    store ++ [r]

/-- The iteration order of the updatedAt index that trimRecords walks:
ascending updatedAt, ties broken by ascending primary key (IndexedDB
index order). -/
def recLE (a b : CachedExplainRecord) : Prop :=
  a.updatedAt < b.updatedAt ∨ (a.updatedAt = b.updatedAt ∧ a.key ≤ b.key)

instance : DecidableRel recLE := fun a b => by
  unfold recLE; exact inferInstance

instance : IsTotal CachedExplainRecord recLE :=
  ⟨fun a b => by
    unfold recLE
    rcases lt_trichotomy a.updatedAt b.updatedAt with h | h | h
    · exact Or.inl (Or.inl h)
    · rcases le_total a.key b.key with hk | hk
      · exact Or.inl (Or.inr ⟨h, hk⟩)
      · exact Or.inr (Or.inr ⟨h.symm, hk⟩)
    · exact Or.inr (Or.inl h)⟩

instance : IsTrans CachedExplainRecord recLE :=
  ⟨fun a b c hab hbc => by
    unfold recLE at *
    rcases hab with h1 | ⟨e1, k1⟩
    · rcases hbc with h2 | ⟨e2, _⟩
      · exact Or.inl (h1.trans h2)
      · exact Or.inl (e2 ▸ h1)
    · rcases hbc with h2 | ⟨e2, k2⟩
      · exact Or.inl (e1 ▸ h2)
      · exact Or.inr ⟨e1.trans e2, k1.trans k2⟩⟩

/-- The records of the store in the order the updatedAt index cursor
visits them. -/
def sortByUpdatedAt (store : RecordStore) : List CachedExplainRecord :=
  List.insertionSort recLE store

/-- trimRecords from shared/indexedDb.ts: when the record count exceeds
maxEntries, walk the updatedAt index in ascending order deleting records
until count minus maxEntries of them are gone; otherwise do nothing. -/
def trimRecords (maxEntries : Nat) (store : RecordStore) : RecordStore :=
  if store.length ≤ maxEntries then store
  else (sortByUpdatedAt store).drop (store.length - maxEntries)

/- ===================== background/cache.ts ====================== -/

/-- The expiry the quick write stores: the adjusted expiresAt of
writeQuickToCache in background/cache.ts.  A zero requested expiresAt is
falsy in the source conditional, so the policy expiry is used as-is;
otherwise the requested expiry is capped by the policy expiry. -/
def quickAdjustedExpiresAt (settings : CacheSettings) (now : Nat)
    (response : QuickExplainResponse) : Nat :=
  let ttlExpiry := now + settings.quickTtlMinutes * 60 * 1000
  if response.expiresAt ≠ 0 then min response.expiresAt ttlExpiry
  else ttlExpiry

/-- writeQuickToCache from background/cache.ts: clamp the payload
expiry to the policy TTL, upsert a record holding only the quick
payload, then trim.  The two Date.now() calls of the source are
modelled by the single instant now. -/
def writeQuickToCache (settings : CacheSettings) (now : Nat)
    (text : String) (response : QuickExplainResponse)
    (profileId : Option String) (store : RecordStore) : RecordStore :=
  let adjustedResponse :=
    { response with expiresAt := quickAdjustedExpiresAt settings now response }
  let key := computeCacheKey text profileId
  trimRecords settings.maxEntries
    (writeRecord store
      { key := key, quick := some adjustedResponse, deep := none,
        profileId := profileId, updatedAt := now })

/-- writeDeepToCache from background/cache.ts: upsert a record holding
only the deep payload, then trim. -/
def writeDeepToCache (settings : CacheSettings) (now : Nat)
    (text : String) (response : Json)
    (profileId : Option String) (store : RecordStore) : RecordStore :=
  let key := computeCacheKey text profileId
  trimRecords settings.maxEntries
    (writeRecord store
      { key := key, quick := none, deep := some response,
        profileId := profileId, updatedAt := now })

/-- readQuickFromCache from background/cache.ts: the quick payload of
the record under the derived key, provided its expiresAt is strictly in
the future; the store itself is returned unchanged (the source only
performs a get).  An expired payload is left in place. -/
def readQuickFromCache (now : Nat) (store : RecordStore)
    (text : String) (profileId : Option String) :
    Option QuickExplainResponse × RecordStore :=
  let key := computeCacheKey text profileId
  match findRecord key store with
  | some rec =>
    match rec.quick with
    | some q => if now < q.expiresAt then (some q, store) else (none, store)
    | none => (none, store)
  | none => (none, store)

/-- readDeepFromCache from background/cache.ts: the deep payload of the
record under the derived key, if any. -/
def readDeepFromCache (store : RecordStore)
    (text : String) (profileId : Option String) : Option Json :=
  match findRecord (computeCacheKey text profileId) store with
  | some rec => rec.deep
  | none => none

/- ===================== background/keyStore.ts ====================== -/

/-- The ApiKeys shape stored in extension storage (all fields
optional). -/
structure StoredApiKeys where
  openaiKey : Option String
  langGraphKey : Option String
  openaiBaseUrl : Option String
deriving DecidableEq

/-- The ApiKeys value getApiKeys resolves (defaults applied). -/
structure ApiKeys where
  openaiKey : Option String
  langGraphKey : Option String
  openaiBaseUrl : Option String
deriving DecidableEq

/-- DEFAULT_OPENAI_BASE_URL from the key-store module. -/
def DEFAULT_OPENAI_BASE_URL : String := "https://api.openai.com/v1"

/-- Modelled from the spec: the constant DEFAULT_OPENAI_API_KEY lives
in shared/config.ts, which is absent from the sources (only its
importers are present).  The spec requires quick and deep calls to fail
fast with a MissingCredential signal when no key is configured, which
entails that no usable credential is baked in: the default key is the
empty string, which is falsy wherever the code tests the resolved
key. -/
def DEFAULT_OPENAI_API_KEY : String := ""

/-- getApiKeys from background/keyStore.ts: stored values with the
defaults substituted for an absent key and base URL. -/
def getApiKeys (stored : Option StoredApiKeys) : ApiKeys :=
  let s := stored.getD { openaiKey := none, langGraphKey := none, openaiBaseUrl := none }
  { openaiKey := some (s.openaiKey.getD DEFAULT_OPENAI_API_KEY),
    langGraphKey := s.langGraphKey,
    openaiBaseUrl := some (s.openaiBaseUrl.getD DEFAULT_OPENAI_BASE_URL) }

/- ===================== background/router.ts: SSE decoding ============ -/

/-- SERVER_BASE from background/router.ts. -/
def SERVER_BASE : String := "http://127.0.0.1:8000"

/-- A decoded server-sent event, in decode order: a completion payload
or a progress payload (both raw parsed JSON). -/
inductive SseEvent where
  | complete (payload : Json) : SseEvent
  | progress (payload : Json) : SseEvent
deriving DecidableEq

/-- An outbound notification the background sends to the content tab. -/
inductive TabNotif where
  | progress (requestId : String) (payload : Json) : TabNotif
  | ready (payload : Json) : TabNotif
  | failed (requestId : String) (mode : String) (reason : String) : TabNotif
deriving DecidableEq

/-- Index of the first blank-line separator (two consecutive newlines)
in the buffer, as found by indexOf. -/
def findSep : List Char → Option Nat
  | [] => none
  | [_] => none
  | a :: b :: rest =>
    if a = '\n' ∧ b = '\n' then some 0
    else (findSep (b :: rest)).map (· + 1)

/-- Split a character list at every occurrence of a separator
character, keeping empty pieces (String.prototype.split with a
one-character separator). -/
def splitOnChar (sep : Char) : List Char → List (List Char)
  | [] => [[]]
  | c :: rest =>
    if c = sep then [] :: splitOnChar sep rest
    else
      match splitOnChar sep rest with
      | h :: t => (c :: h) :: t
      | [] => [[c]]

/-- Does the second list start with the first? -/
def listStartsWith : List Char → List Char → Bool
  | [], _ => true
  | _, [] => false
  | p :: ps, c :: cs => p == c && listStartsWith ps cs

/-- handleSseEvent from background/router.ts, up to the effect it
produces: split the record into lines; the last event-prefixed line
names the event type (message when there is none); the data-prefixed
lines are stripped, trimmed and joined by newlines; an empty data
string produces nothing; otherwise the data is parsed as JSON (a parse
failure models the thrown SyntaxError).  A complete event yields the
completion payload, an error event throws the payload reason (the
reason field when it is a string, the default message otherwise), and
every other event type yields a progress payload. -/
def handleSseEvent (rawEvent : String) : Except String (Option SseEvent) :=
  let lines := splitOnChar '\n' rawEvent.data
  let eventType :=
    (lines.filter (listStartsWith "event:".data)).foldl
      (fun _ line => jsTrim ⟨line.drop 6⟩) "message"
  let dataLines :=
    (lines.filter fun line =>
        !listStartsWith "event:".data line && listStartsWith "data:".data line).map
      fun line => jsTrim ⟨line.drop 5⟩
  let dataRaw := String.intercalate "\n" dataLines
  if dataRaw = "" then .ok none
  else
    match jsonParse dataRaw with
    | none => .error "Unexpected token in JSON"
    | some parsed =>
      if eventType = "complete" then .ok (some (.complete parsed))
      else if eventType = "error" then
        .error
          (match parsed.getField "reason" with
           | some (.str s) => s
           | _ => "Deep explain streaming error")
      else .ok (some (.progress parsed))

/-- The loop body of processSseBuffer from background/router.ts, with
fuel bounding the iteration count: as long as the buffer holds a
blank-line separator, cut the record before it off, trim it, handle it
when non-empty, and continue on the remainder after the separator.
Every iteration consumes at least two characters, so fuel equal to the
buffer length (as supplied by processSseBuffer) never runs out. -/
def processSseLoop : Nat → List Char → List SseEvent × Except String (List Char)
  | 0, buffer => ([], .ok buffer)
  | fuel + 1, buffer =>
    match findSep buffer with
    | none => ([], .ok buffer)
    | some i =>
      let rawEvent := jsTrim ⟨buffer.take i⟩
      let rest := buffer.drop (i + 2)
      let step : Except String (Option SseEvent) :=
        if rawEvent = "" then .ok none else handleSseEvent rawEvent
      match step with
      | .error e => ([], .error e)
      | .ok act =>
        let (evs, res) := processSseLoop fuel rest
        (match act with
         | none => evs
         | some ev => ev :: evs, res)

/-- processSseBuffer from background/router.ts: the decoded events of
one feed call, and either the unconsumed remainder buffer or the thrown
error. -/
def processSseBuffer (buffer : List Char) :
    List SseEvent × Except String (List Char) :=
  processSseLoop buffer.length buffer

/-- The read loop of streamDeepExplain: append each arriving chunk to
the carried-over buffer and run processSseBuffer, stopping at a thrown
error; events accumulate across feeds. -/
def feedChunks : List String → List Char → List SseEvent × Except String (List Char)
  | [], buffer => ([], .ok buffer)
  | chunk :: rest, buffer =>
    let (evs, res) := processSseBuffer (buffer ++ chunk.data)
    match res with
    | .error e => (evs, .error e)
    | .ok buf2 =>
      let (evs2, res2) := feedChunks rest buf2
      (evs ++ evs2, res2)

/-- The finalResult variable of streamDeepExplain after a run: each
complete event overwrites it, so it holds the payload of the last
complete event, if any. -/
def lastComplete (evs : List SseEvent) : Option Json :=
  evs.foldl
    (fun acc ev =>
      match ev with
      | .complete j => some j
      | .progress _ => acc)
    none

/-- JS truthiness of a JSON value (null, false, zero and the empty
string are falsy). -/
def jsTruthyJson : Json → Bool
  | .null => false
  | .bool b => b
  | .num n => n ≠ 0
  | .str s => s ≠ ""
  | .arr _ => true
  | .obj _ => true

/-- The object spread building the progress notification payload: the
parsed fields with requestId set on top.  Spreading a non-object
contributes no fields of interest to the deep stream, so only the
requestId survives in that case. -/
def spreadWithRequestId (parsed : Json) (rid : String) : Json :=
  match parsed with
  | .obj fields => .obj (fields.setField "requestId" (.str rid))
  | _ => .obj (JsonFields.cons "requestId" (.str rid) .nil)

/-- The DEEP_EXPLAIN_PROGRESS notifications the decode of a run emits,
in order (one per progress event, each carrying the parsed payload with
the requestId spread on). -/
def progressNotifs (rid : String) (evs : List SseEvent) : List TabNotif :=
  evs.filterMap fun ev =>
    match ev with
    | .progress j => some (TabNotif.progress rid (spreadWithRequestId j rid))
    | .complete _ => none

/-- The network-level outcome of the deep-explain fetch. -/
inductive DeepFetchOutcome where
  | httpError (statusText : String) : DeepFetchOutcome
  | noBody : DeepFetchOutcome
  | stream (chunks : List String) : DeepFetchOutcome
deriving DecidableEq

/-- The headers streamDeepExplain sends: always the JSON content type;
the local key and base URL headers only when the resolved values are
truthy.  Note that a missing key does not stop the request — the code
falls back to the server-side configuration. -/
def deepRequestHeaders (keys : ApiKeys) : List (String × String) :=
  [("Content-Type", "application/json")] ++
    (if jsTruthyStr keys.openaiKey then
       [("X-OpenAI-Key", keys.openaiKey.getD "")]
     else []) ++
    (if jsTruthyStr keys.openaiBaseUrl then
       [("X-OpenAI-Base", keys.openaiBaseUrl.getD "")]
     else [])

/-- The POST request streamDeepExplain issues to the explanation
server. -/
structure DeepHttpRequest where
  url : String
  headers : List (String × String)
deriving DecidableEq

/-- streamDeepExplain from background/router.ts: issue the POST to the
deep-explain endpoint (unconditionally — the key only shapes the
headers), then fail on a non-success status or a missing body, or drive
the byte stream through the SSE decoder.  When the stream ends with a
falsy finalResult (in particular, when no complete event was decoded)
the stream-incomplete error is thrown; otherwise the final payload is
sent to the tab as DEEP_EXPLAIN_READY and returned. -/
def streamDeepExplain (keys : ApiKeys) (rid : String)
    (outcome : DeepFetchOutcome) :
    DeepHttpRequest × List TabNotif × Except String Json :=
  let request : DeepHttpRequest :=
    { url := SERVER_BASE ++ "/explain/deep", headers := deepRequestHeaders keys }
  match outcome with
  | .httpError statusText =>
    (request, [], .error ("Deep explain failed: " ++ statusText))
  | .noBody =>
    (request, [], .error "Deep explain response has no body to stream")
  | .stream chunks =>
    let (evs, res) := feedChunks chunks []
    let notifs := progressNotifs rid evs
    match res with
    | .error e => (request, notifs, .error e)
    | .ok _ =>
      match lastComplete evs with
      | none =>
        (request, notifs, .error "Deep explain stream ended without completion event")
      | some j =>
        if jsTruthyJson j then
          (request, notifs ++ [TabNotif.ready j], .ok j)
        else
          (request, notifs, .error "Deep explain stream ended without completion event")

/-- processDeepExplain from background/router.ts: on a cache hit, send
the cached payload as DEEP_EXPLAIN_READY and answer cached; on a miss,
run the streaming call — writing the final payload to the cache on
success, or sending REQUEST_FAILED on any thrown error.  The result
carries the reply (cached flag or error), the store after the
operation, the notifications sent to the tab, and the network request
issued, if any. -/
def processDeepExplain (settings : CacheSettings) (now : Nat)
    (store : RecordStore) (keys : ApiKeys)
    (text : String) (profileId : Option String) (rid : String)
    (outcome : DeepFetchOutcome) :
    Except String Bool × RecordStore × List TabNotif × Option DeepHttpRequest :=
  match readDeepFromCache store text profileId with
  | some hit => (.ok true, store, [TabNotif.ready hit], none)
  | none =>
    let (request, notifs, res) := streamDeepExplain keys rid outcome
    match res with
    | .ok j =>
      (.ok false, writeDeepToCache settings now text j profileId store, notifs,
       some request)
    | .error e =>
      (.error e, store, notifs ++ [TabNotif.failed rid "deep" e], some request)

/- ============== background/router.ts: quick path ============== -/

/-- The reply shape of the quick-explain message handler. -/
structure QuickReply where
  ok : Bool
  cached : Bool
  response : Option QuickExplainResponse
  error : Option String
deriving DecidableEq

/-- processQuickExplain from background/router.ts: resolve the
effective profile id (payload profile id, else the active profile);
answer a fresh cache hit immediately; otherwise refuse with the
missing-key error when the resolved OpenAI key is falsy — without
calling the completion endpoint — and otherwise perform the network
call, writing a success to the cache.  The middle component reports
whether the completion endpoint was called.  The telemetry calls of the
source touch only the telemetry snapshot and are outside this model. -/
def processQuickExplain (settings : CacheSettings) (now : Nat)
    (store : RecordStore) (payload : ExplainRequestPayload)
    (activeProfileId : Option String) (keys : ApiKeys)
    (netOutcome : Except String QuickExplainResponse) :
    QuickReply × Bool × RecordStore :=
  let profileId := payload.profileId.orElse fun _ => activeProfileId
  match (readQuickFromCache now store payload.subtitleText profileId).1 with
  | some hit =>
    ({ ok := true, cached := true, response := some hit, error := none },
     false, store)
  | none =>
    if jsTruthyStr keys.openaiKey = false then
      ({ ok := false, cached := false, response := none,
         error := some "Missing OpenAI API key" }, false, store)
    else
      match netOutcome with
      | .ok resp =>
        ({ ok := true, cached := false, response := some resp, error := none },
         true, writeQuickToCache settings now payload.subtitleText resp profileId store)
      | .error reason =>
        ({ ok := false, cached := false, response := none,
           error := some reason }, true, store)

/- ============== content/index.tsx: overlay state machine ============== -/

/-- The React state of the Overlay component that the message handler
and the quick-explain continuation touch.  The lastRequestIdRef of the
source mirrors the lastRequestId state (an effect keeps them in sync),
so a single field models both. -/
structure OverlayState where
  lastRequestId : Option String
  quickLoading : Bool
  quickError : Option String
  quickResponse : Option QuickExplainResponse
  deepLoading : Bool
  deepData : Option Json
deriving DecidableEq

/-- A message from the background to the content script.  The payloads
of the deep notifications are raw JSON (the decoded stream payload or
the cached record payload); REQUEST_FAILED carries the fields
emitFailure sets. -/
inductive ContentMessage where
  | deepReady (payload : Json) : ContentMessage
  | deepProgress (payload : Json) : ContentMessage
  | requestFailed (requestId : String) (mode : String)
      (reason : Option String) : ContentMessage
deriving DecidableEq

/-- The requestId property of a notification payload, when it is a
string. -/
def ridOfPayload (payload : Json) : Option String :=
  match payload.getField "requestId" with
  | some (.str s) => some s
  | _ => none

/-- The guard of the deep handlers: the payload requestId (a string or
undefined) strictly equals the current lastRequestId (a string or null)
only when both are the same string. -/
def ridMatchesCurrent (payload : Json) (cur : Option String) : Bool :=
  match ridOfPayload payload, cur with
  | some a, some b => a == b
  | _, _ => false

/-- Merge every field of the second object body onto the first, later
fields replacing earlier ones. -/
def JsonFields.mergeInto : JsonFields → JsonFields → JsonFields
  | acc, .nil => acc
  | acc, .cons k v tl => JsonFields.mergeInto (acc.setField k v) tl

/-- The object spread of the progress handler: previous partial deep
data (or the empty object) with the payload fields spread on top. -/
def jsSpreadMerge (prev : Option Json) (payload : Json) : Json :=
  let baseFields : JsonFields :=
    match prev with
    | some (.obj f) => f
    | _ => .nil
  match payload with
  | .obj f2 => .obj (baseFields.mergeInto f2)
  | _ => .obj baseFields

/-- handleMessage from content/index.tsx: every branch first compares
the requestId the message carries with the current lastRequestId and
returns without touching any state when they differ; a matching ready
message installs the final payload and stops the deep spinner, a
matching progress message shallow-merges the partial payload, and a
matching failure clears the loading flag of its mode (and, for quick,
records the reason). -/
def handleMessage (s : OverlayState) (m : ContentMessage) : OverlayState :=
  match m with
  | .deepReady payload =>
    if ridMatchesCurrent payload s.lastRequestId then
      { s with deepData := some payload, deepLoading := false }
    else s
  | .deepProgress payload =>
    if ridMatchesCurrent payload s.lastRequestId then
      { s with deepData := some (jsSpreadMerge s.deepData payload) }
    else s
  | .requestFailed rid mode reason =>
    if (match s.lastRequestId with
        | some b => rid == b
        | none => false) then
      { s with
        quickLoading := if mode == "quick" then false else s.quickLoading,
        deepLoading := if mode == "deep" then false else s.deepLoading,
        quickError :=
          if mode == "quick" then some (reason.getD "Unknown error")
          else s.quickError }
    else s

/-- The synchronous opening of triggerQuickExplain in
content/index.tsx: a fresh request id becomes current and the
quick-request state is reset. -/
def triggerQuickExplainStart (s : OverlayState) (rid : String) : OverlayState :=
  { s with
    lastRequestId := some rid,
    quickLoading := true,
    deepData := none,
    quickResponse := none,
    quickError := none }

/-- The outcome of the awaited requestQuickExplain call. -/
inductive QuickCallOutcome where
  | success (response : QuickExplainResponse) (cached : Bool) : QuickCallOutcome
  | failure (error : Option String) : QuickCallOutcome
deriving DecidableEq

/-- The continuation of triggerQuickExplain after its await resolves
(the try, catch and finally bodies of the source): when the request id
is no longer current the continuation returns before touching any
state; otherwise a success installs the response, a failure or a thrown
exception records the error reason, and the finally clause clears the
quick spinner. -/
def resolveQuickOutcome (s : OverlayState) (rid : String)
    (outcome : Except String QuickCallOutcome) : OverlayState :=
  if s.lastRequestId = some rid then
    match outcome with
    | .ok (.success resp _) =>
      { s with quickResponse := some resp, quickError := none,
               quickLoading := false }
    | .ok (.failure err) =>
      { s with quickError := some (err.getD "Unknown error"),
               quickLoading := false }
    | .error reason =>
      { s with quickError := some reason, quickLoading := false }
  else s

/- ============== content/subtitleDetector.ts ============== -/

/-- The dedup state of SubtitleDetector: the last emitted line. -/
structure DetectorState where
  lastSubtitle : String
deriving DecidableEq

/-- The emit method of SubtitleDetector: an empty text or a text equal
to the last emitted one is dropped without invoking any listener;
otherwise the text becomes the last emitted line and every listener is
invoked once.  The boolean reports whether listeners were invoked. -/
def emitObservation (s : DetectorState) (text : String) :
    DetectorState × Bool :=
  if text = "" ∨ text = s.lastSubtitle then (s, false)
  else ({ lastSubtitle := text }, true)

/-- The four resolution tiers of the detector. -/
inductive ResolutionTier where
  | domScan : ResolutionTier
  | textTrackCue : ResolutionTier
  | ariaLive : ResolutionTier
  | ocr : ResolutionTier
deriving DecidableEq

/-- The text each tier hands to emit, as a function of the raw text the
tier read: the structural scan, the text-track cue extraction and the
ARIA-live fallback collapse whitespace runs and trim; the optical
fallback emits the recognized text trimmed (runOcr trims it). -/
def resolvedText : ResolutionTier → String → String
  | .domScan, raw => jsTrim (collapseWs raw)
  | .textTrackCue, raw => jsTrim (collapseWs raw)
  | .ariaLive, raw => jsTrim (collapseWs raw)
  | .ocr, raw => jsTrim raw

/- ===================== derived views and fixtures ====================== -/

/-- The quick payload the store holds under a key: the quick field of
the record found there, if any. -/
def quickPayloadAt (store : RecordStore) (key : String) :
    Option QuickExplainResponse :=
  (findRecord key store).bind fun rec => rec.quick

/-- The single SSE record of the split-boundary property, terminated by
the blank-line separator the decoder dispatches on. -/
def sseCompleteRecord : String :=
  "event: complete\ndata: \x7b\"a\":1\x7d\n\n"

/-- The same record without the terminating blank line (the literal
string the specification feeds). -/
def sseBareRecord : String :=
  "event: complete\ndata: \x7b\"a\":1\x7d"

/-- Feed a string to the decoder in two chunks split at offset i. -/
def sseSplitFeed (s : String) (i : Nat) :
    List SseEvent × Except String (List Char) :=
  feedChunks [⟨s.data.take i⟩, ⟨s.data.drop i⟩] []

deriving instance DecidableEq for Except

/- ===================== helper lemmas ====================== -/

theorem head_false_of_dropWhile_eq_self {p : Char → Bool} {c : Char}
    {l : List Char} (h : List.dropWhile p (c :: l) = c :: l) : p c = false := by
  by_cases hp : p c
  · rw [List.dropWhile_cons, if_pos hp] at h
    have hle : (List.dropWhile p l).length ≤ l.length :=
      List.Sublist.length_le (List.dropWhile_sublist _)
    rw [h] at hle
    simp at hle
  · exact Bool.eq_false_iff.mpr hp

theorem dropWhile_rdropWhile_self {p : Char → Bool} {l : List Char}
    (h : List.dropWhile p l = l) :
    List.dropWhile p (List.rdropWhile p l) = List.rdropWhile p l := by
  cases hB : List.rdropWhile p l with
  | nil => simp
  | cons c rest =>
    have hpre : List.rdropWhile p l <+: l := List.rdropWhile_prefix p l
    rw [hB] at hpre
    obtain ⟨t, ht⟩ := hpre
    have hfull : List.dropWhile p (c :: (rest ++ t)) = c :: (rest ++ t) := by
      have := h
      rw [← ht] at this
      simpa using this
    have hc : p c = false := head_false_of_dropWhile_eq_self hfull
    rw [List.dropWhile_cons, hc]
    simp

theorem trimChars_eq_rdropWhile (l : List Char) :
    trimChars l = List.rdropWhile isJsWs (List.dropWhile isJsWs l) := rfl

theorem trimChars_idem (l : List Char) : trimChars (trimChars l) = trimChars l := by
  rw [trimChars_eq_rdropWhile l, trimChars_eq_rdropWhile]
  have h1 : List.dropWhile isJsWs (List.dropWhile isJsWs l) =
      List.dropWhile isJsWs l := List.dropWhile_idempotent isJsWs l
  have h2 := dropWhile_rdropWhile_self h1
  rw [h2]
  exact List.rdropWhile_idempotent isJsWs (List.dropWhile isJsWs l)

theorem jsTrim_idem (s : String) : jsTrim (jsTrim s) = jsTrim s :=
  congrArg String.mk (trimChars_idem s.data)

theorem resolvedText_trim_fixed (tier : ResolutionTier) (raw : String) :
    jsTrim (resolvedText tier raw) = resolvedText tier raw := by
  cases tier <;> exact jsTrim_idem _

theorem string_append_right_cancel {a b c : String} (h : a ++ c = b ++ c) :
    a = b := by
  apply String.ext
  have h2 : a.data ++ c.data = b.data ++ c.data := by
    cases a with
    | mk la =>
      cases b with
      | mk lb =>
        cases c with
        | mk lc => exact congrArg String.data h
  exact List.append_cancel_right h2

/- ===================== claim C2 ====================== -/

/-- Claim C2: computeCacheKey is a pure function that lower-cases and
trims the text, so texts equal after trimming and lower-casing collide
under every profile id, while a fixed text never collides across two
distinct non-empty profile ids. -/
theorem computeCacheKey_deterministic_and_profile_disjoint :
    (∀ (p : Option String) (t1 t2 : String),
        jsToLower (jsTrim t1) = jsToLower (jsTrim t2) →
        computeCacheKey t1 p = computeCacheKey t2 p) ∧
    (∀ (t : String) (p1 p2 : String), p1 ≠ "" → p2 ≠ "" → p1 ≠ p2 →
        computeCacheKey t (some p1) ≠ computeCacheKey t (some p2)) := by
  constructor
  · intro p t1 t2 h
    unfold computeCacheKey
    rw [h]
  · intro t p1 p2 _ _ hne hkey
    apply hne
    unfold computeCacheKey at hkey
    simp only [Option.getD_some] at hkey
    rw [String.append_assoc, String.append_assoc] at hkey
    exact string_append_right_cancel hkey

/-- Witness for C2 at the concrete texts of the specification. -/
theorem computeCacheKey_deterministic_and_profile_disjoint_witness :
    computeCacheKey "That\x27s cap" (some "p1") =
      computeCacheKey "  THAT\x27S CAP " (some "p1") ∧
    computeCacheKey "That\x27s cap" (some "p1") ≠
      computeCacheKey "That\x27s cap" (some "p2") :=
  ⟨computeCacheKey_deterministic_and_profile_disjoint.1 (some "p1")
      "That\x27s cap" "  THAT\x27S CAP " (by decide),
   computeCacheKey_deterministic_and_profile_disjoint.2 "That\x27s cap"
      "p1" "p2" (by decide) (by decide) (by decide)⟩

/- ===================== claim C10 ====================== -/

/-- Claim C10: any two consecutively resolved subtitle texts (from any
of the four resolution tiers) whose trimmed forms are identical lead to
at most one listener invocation — the second emit is suppressed.  This
holds because every tier hands emit an already-trimmed text, so equal
trimmed forms mean equal texts, and emit drops a text equal to the last
emitted one. -/
theorem subtitle_dedup_suppresses_second (s : DetectorState)
    (tier1 tier2 : ResolutionTier) (raw1 raw2 : String)
    (h : jsTrim (resolvedText tier1 raw1) = jsTrim (resolvedText tier2 raw2)) :
    (emitObservation (emitObservation s (resolvedText tier1 raw1)).1
        (resolvedText tier2 raw2)).2 = false := by
  have heq : resolvedText tier1 raw1 = resolvedText tier2 raw2 := by
    rw [← resolvedText_trim_fixed tier1 raw1, h, resolvedText_trim_fixed]
  rw [heq]
  by_cases h0 : resolvedText tier2 raw2 = ""
  · simp [emitObservation, h0]
  · by_cases h1 : resolvedText tier2 raw2 = s.lastSubtitle
    · simp [emitObservation, h0, h1]
    · simp [emitObservation, h0, h1]

/-- Witness for C10: a structural-scan resolution followed by an
optical one with the same trimmed text fires listeners only once. -/
theorem subtitle_dedup_suppresses_second_witness :
    (emitObservation
        (emitObservation ⟨""⟩ (resolvedText .domScan " hi   there ")).1
        (resolvedText .ocr "hi there")).2 = false :=
  subtitle_dedup_suppresses_second ⟨""⟩ .domScan .ocr
    " hi   there " "hi there" (by decide)

/- ===================== claim C1 ====================== -/

/-- Claim C1: every asynchronous result arriving at the overlay with a
requestId different from the current lastRequestId — a deep-explain
ready payload, a deep-explain progress payload, a request-failed
notification, or the resolution of a quick-explain call — is discarded
without any state update (and hence without anything being shown: the
overlay renders purely from this state). -/
theorem stale_results_discarded (s : OverlayState) :
    (∀ payload : Json, ridOfPayload payload ≠ s.lastRequestId →
        handleMessage s (.deepReady payload) = s) ∧
    (∀ payload : Json, ridOfPayload payload ≠ s.lastRequestId →
        handleMessage s (.deepProgress payload) = s) ∧
    (∀ (rid mode : String) (reason : Option String),
        some rid ≠ s.lastRequestId →
        handleMessage s (.requestFailed rid mode reason) = s) ∧
    (∀ (rid : String) (outcome : Except String QuickCallOutcome),
        some rid ≠ s.lastRequestId →
        resolveQuickOutcome s rid outcome = s) := by
  have hguard : ∀ payload : Json, ridOfPayload payload ≠ s.lastRequestId →
      ridMatchesCurrent payload s.lastRequestId = false := by
    intro payload h
    unfold ridMatchesCurrent
    cases hr : ridOfPayload payload with
    | none => cases s.lastRequestId <;> rfl
    | some a =>
      cases hc : s.lastRequestId with
      | none => rfl
      | some b =>
        rw [hr, hc] at h
        have : a ≠ b := fun e => h (by rw [e])
        simpa using this
  refine ⟨?_, ?_, ?_, ?_⟩
  · intro payload h
    simp [handleMessage, hguard payload h]
  · intro payload h
    simp [handleMessage, hguard payload h]
  · intro rid mode reason h
    cases hc : s.lastRequestId with
    | none => simp [handleMessage, hc]
    | some b =>
      rw [hc] at h
      have hne : rid ≠ b := fun e => h (by rw [e])
      simp [handleMessage, hc, hne]
  · intro rid outcome h
    unfold resolveQuickOutcome
    rw [if_neg (fun e => h e.symm)]

/-- Witness for C1: after request a is superseded by request b, the
eventual resolution of a (success notification or failure) changes
nothing. -/
theorem stale_results_discarded_witness :
    handleMessage
        (triggerQuickExplainStart
          (triggerQuickExplainStart ⟨none, false, none, none, false, none⟩ "a")
          "b")
        (.deepReady (Json.obj (JsonFields.cons "requestId" (Json.str "a")
          JsonFields.nil))) =
      triggerQuickExplainStart
        (triggerQuickExplainStart ⟨none, false, none, none, false, none⟩ "a")
        "b" ∧
    resolveQuickOutcome
        (triggerQuickExplainStart
          (triggerQuickExplainStart ⟨none, false, none, none, false, none⟩ "a")
          "b")
        "a" (.error "network failure") =
      triggerQuickExplainStart
        (triggerQuickExplainStart ⟨none, false, none, none, false, none⟩ "a")
        "b" :=
  ⟨(stale_results_discarded _).1 _ (by decide),
   (stale_results_discarded _).2.2.2 "a" _ (by decide)⟩

/- ===================== cache-store lemmas ====================== -/

theorem trimRecords_of_le {m : Nat} {store : RecordStore}
    (h : store.length ≤ m) : trimRecords m store = store := by
  unfold trimRecords
  rw [if_pos h]

theorem writeRecord_length_le (store : RecordStore)
    (r : CachedExplainRecord) :
    (writeRecord store r).length ≤ store.length + 1 := by
  unfold writeRecord
  split
  · simp only [List.length_map]
    omega
  · simp

theorem find?_map_replace (r : CachedExplainRecord) :
    ∀ store : RecordStore, store.any (fun x => x.key == r.key) = true →
      List.find? (fun x => x.key == r.key)
        (store.map fun x => if x.key == r.key then r else x) = some r := by
  intro store
  induction store with
  | nil => intro h; simp at h
  | cons x xs ih =>
    intro h
    by_cases hx : (x.key == r.key) = true
    · rw [List.map_cons, if_pos hx, List.find?_cons]
      simp
    · have hxf : (x.key == r.key) = false := by
        simpa using hx
      have h2 : xs.any (fun x => x.key == r.key) = true := by
        simpa [List.any_cons, hxf] using h
      rw [List.map_cons, if_neg hx, List.find?_cons]
      simp only [hxf]
      exact ih h2

theorem find?_append_self (r : CachedExplainRecord) :
    ∀ store : RecordStore, store.any (fun x => x.key == r.key) = false →
      List.find? (fun x => x.key == r.key) (store ++ [r]) = some r := by
  intro store
  induction store with
  | nil => intro _; simp [List.find?_cons]
  | cons x xs ih =>
    intro h
    have h' : ¬x.key = r.key ∧ ∀ y ∈ xs, ¬y.key = r.key := by
      simpa [List.any_cons] using h
    have hxf : (x.key == r.key) = false := beq_eq_false_iff_ne.mpr h'.1
    have hxs : xs.any (fun y => y.key == r.key) = false := by
      cases hcase : xs.any (fun y => y.key == r.key) with
      | false => rfl
      | true =>
        obtain ⟨y, hy, he⟩ := List.any_eq_true.mp hcase
        exact absurd (eq_of_beq he) (h'.2 y hy)
    rw [List.cons_append, List.find?_cons]
    simp [hxf, ih hxs]

theorem findRecord_writeRecord (store : RecordStore)
    (r : CachedExplainRecord) :
    findRecord r.key (writeRecord store r) = some r := by
  unfold findRecord writeRecord
  cases h : store.any (fun x => x.key == r.key) with
  | true =>
    rw [if_pos rfl]
    exact find?_map_replace r store h
  | false =>
    rw [if_neg (by simp)]
    exact find?_append_self r store h

theorem sortByUpdatedAt_perm (l : RecordStore) :
    List.Perm (sortByUpdatedAt l) l :=
  List.perm_insertionSort recLE l

theorem sortByUpdatedAt_sorted (l : RecordStore) :
    List.Sorted recLE (sortByUpdatedAt l) :=
  List.sorted_insertionSort recLE l

theorem trimRecords_spec (m : Nat) (w : RecordStore) :
    (trimRecords m w).length = min w.length m ∧
    (∀ x ∈ trimRecords m w, x ∈ w) ∧
    (List.Pairwise (fun a b => a.updatedAt ≠ b.updatedAt) w →
      ∀ d ∈ w, d ∉ trimRecords m w →
        ∀ k ∈ trimRecords m w, d.updatedAt < k.updatedAt) := by
  by_cases h : w.length ≤ m
  · rw [trimRecords_of_le h]
    refine ⟨by omega, fun x hx => hx, ?_⟩
    intro _ d hd hdn _ _
    exact absurd hd hdn
  · have hlen : (sortByUpdatedAt w).length = w.length :=
      (sortByUpdatedAt_perm w).length_eq
    have htr : trimRecords m w = (sortByUpdatedAt w).drop (w.length - m) := by
      unfold trimRecords
      rw [if_neg h]
    refine ⟨?_, ?_, ?_⟩
    · rw [htr, List.length_drop, hlen]
      omega
    · intro x hx
      rw [htr] at hx
      exact (sortByUpdatedAt_perm w).mem_iff.mp (List.drop_subset _ _ hx)
    · intro hpw d hd hdn k hk
      rw [htr] at hdn hk
      have hsorted : List.Pairwise recLE (sortByUpdatedAt w) :=
        sortByUpdatedAt_sorted w
      have hne : List.Pairwise (fun a b => a.updatedAt ≠ b.updatedAt)
          (sortByUpdatedAt w) :=
        ((sortByUpdatedAt_perm w).pairwise_iff
          (fun hxy e => hxy e.symm)).mpr hpw
      have hd_sorted : d ∈ sortByUpdatedAt w :=
        (sortByUpdatedAt_perm w).mem_iff.mpr hd
      have hd_take : d ∈ (sortByUpdatedAt w).take (w.length - m) := by
        have hmem : d ∈ (sortByUpdatedAt w).take (w.length - m) ++
            (sortByUpdatedAt w).drop (w.length - m) := by
          rw [List.take_append_drop]
          exact hd_sorted
        rcases List.mem_append.mp hmem with h1 | h2
        · exact h1
        · exact absurd h2 hdn
      have hsplit : List.Pairwise recLE
          ((sortByUpdatedAt w).take (w.length - m) ++
            (sortByUpdatedAt w).drop (w.length - m)) := by
        rw [List.take_append_drop]
        exact hsorted
      have hsplitne : List.Pairwise (fun a b => a.updatedAt ≠ b.updatedAt)
          ((sortByUpdatedAt w).take (w.length - m) ++
            (sortByUpdatedAt w).drop (w.length - m)) := by
        rw [List.take_append_drop]
        exact hne
      have hcross := (List.pairwise_append.mp hsplit).2.2 d hd_take k hk
      have hcrossne := (List.pairwise_append.mp hsplitne).2.2 d hd_take k hk
      rcases hcross with hlt | ⟨heq, _⟩
      · exact hlt
      · exact absurd heq hcrossne

/- ===================== claim C5 ====================== -/

/-- Claim C5: after a write-then-trim cycle the store holds at most
maxEntries records; the retained records all come from the written
store, and (when updatedAt values are pairwise distinct, so the
ascending updatedAt order is strict) every evicted record is strictly
older than every retained one — the retained records are exactly the
most recently updated ones. -/
theorem write_then_trim_bounds_and_lru (maxEntries : Nat)
    (store : RecordStore) (r : CachedExplainRecord) :
    (trimRecords maxEntries (writeRecord store r)).length ≤ maxEntries ∧
    (trimRecords maxEntries (writeRecord store r)).length =
      min (writeRecord store r).length maxEntries ∧
    (∀ x ∈ trimRecords maxEntries (writeRecord store r),
        x ∈ writeRecord store r) ∧
    (List.Pairwise (fun a b => a.updatedAt ≠ b.updatedAt)
        (writeRecord store r) →
      ∀ d ∈ writeRecord store r,
        d ∉ trimRecords maxEntries (writeRecord store r) →
        ∀ k ∈ trimRecords maxEntries (writeRecord store r),
          d.updatedAt < k.updatedAt) := by
  obtain ⟨h1, h2, h3⟩ := trimRecords_spec maxEntries (writeRecord store r)
  exact ⟨by rw [h1]; omega, h1, h2, h3⟩

/-- Witness for C5: with maxEntries 1, writing a second, newer record
evicts the older one and keeps the newer. -/
theorem write_then_trim_bounds_and_lru_witness :
    (trimRecords 1 (writeRecord [⟨"a", none, none, none, 1⟩]
        ⟨"b", none, none, none, 2⟩)).length ≤ 1 ∧
    (⟨"a", none, none, none, 1⟩ : CachedExplainRecord).updatedAt <
      (⟨"b", none, none, none, 2⟩ : CachedExplainRecord).updatedAt :=
  ⟨(write_then_trim_bounds_and_lru 1 [⟨"a", none, none, none, 1⟩]
      ⟨"b", none, none, none, 2⟩).1,
   (write_then_trim_bounds_and_lru 1 [⟨"a", none, none, none, 1⟩]
      ⟨"b", none, none, none, 2⟩).2.2.2 (by decide)
      ⟨"a", none, none, none, 1⟩ (by decide) (by decide)
      ⟨"b", none, none, none, 2⟩ (by decide)⟩

/- ===================== claim C4 ====================== -/

/-- Claim C4: readQuickFromCache answers null exactly when no quick
payload is stored under the key or the stored payload expiry is not in
the future; a stored quick payload with a future expiry is returned;
and the read never mutates the store (an expired record stays). -/
theorem readQuick_miss_iff_absent_or_expired (now : Nat)
    (store : RecordStore) (text : String) (pid : Option String) :
    ((readQuickFromCache now store text pid).1 = none ↔
      (quickPayloadAt store (computeCacheKey text pid) = none ∨
        ∃ q, quickPayloadAt store (computeCacheKey text pid) = some q ∧
          q.expiresAt ≤ now)) ∧
    (∀ q, quickPayloadAt store (computeCacheKey text pid) = some q →
        now < q.expiresAt →
        (readQuickFromCache now store text pid).1 = some q) ∧
    (readQuickFromCache now store text pid).2 = store := by
  cases hfr : findRecord (computeCacheKey text pid) store with
  | none => simp [readQuickFromCache, quickPayloadAt, hfr]
  | some rec =>
    cases hq : rec.quick with
    | none => simp [readQuickFromCache, quickPayloadAt, hfr, hq]
    | some q =>
      by_cases hn : now < q.expiresAt
      · refine ⟨?_, ?_, ?_⟩
        · simp [readQuickFromCache, quickPayloadAt, hfr, hq, hn]
        · intro q2 hq2 _
          simp [quickPayloadAt, hfr, hq] at hq2
          subst hq2
          simp [readQuickFromCache, hfr, hq, hn]
        · simp [readQuickFromCache, hfr, hq, hn]
      · refine ⟨?_, ?_, ?_⟩
        · simp [readQuickFromCache, quickPayloadAt, hfr, hq, hn]
          omega
        · intro q2 hq2 hn2
          simp [quickPayloadAt, hfr, hq] at hq2
          rw [← hq2] at hn2
          omega
        · simp [readQuickFromCache, hfr, hq, hn]

/-- Witness for C4 at the boundary instants of the specification: an
expiry one millisecond in the past is a miss, an expiry one minute in
the future is a hit, and the miss leaves the store untouched. -/
theorem readQuick_miss_iff_absent_or_expired_witness :
    (readQuickFromCache 1000
        [⟨computeCacheKey "yo" none,
          some ⟨"r1", "lit", "ctx", ⟨"en", none⟩, 0, 61000⟩, none, none, 0⟩]
        "yo" none).1 =
      some ⟨"r1", "lit", "ctx", ⟨"en", none⟩, 0, 61000⟩ ∧
    (readQuickFromCache 1000
        [⟨computeCacheKey "yo" none,
          some ⟨"r1", "lit", "ctx", ⟨"en", none⟩, 0, 999⟩, none, none, 0⟩]
        "yo" none).1 = none ∧
    (readQuickFromCache 1000
        [⟨computeCacheKey "yo" none,
          some ⟨"r1", "lit", "ctx", ⟨"en", none⟩, 0, 999⟩, none, none, 0⟩]
        "yo" none).2 =
      [⟨computeCacheKey "yo" none,
        some ⟨"r1", "lit", "ctx", ⟨"en", none⟩, 0, 999⟩, none, none, 0⟩] :=
  ⟨(readQuick_miss_iff_absent_or_expired 1000 _ "yo" none).2.1
      ⟨"r1", "lit", "ctx", ⟨"en", none⟩, 0, 61000⟩ (by decide) (by decide),
   (readQuick_miss_iff_absent_or_expired 1000 _ "yo" none).1.mpr
      (Or.inr ⟨⟨"r1", "lit", "ctx", ⟨"en", none⟩, 0, 999⟩, by decide, by decide⟩),
   (readQuick_miss_iff_absent_or_expired 1000 _ "yo" none).2.2⟩

/- ===================== claim C3 ====================== -/

/-- Counterexample to C3 as stated: a payload whose requested expiresAt
is 0 is falsy in the source conditional, so the write stores the policy
expiry (here 1801000) instead of the minimum of the requested expiry
and the policy expiry (which would be 0). -/
theorem quick_ttl_clamp_counterexample :
    quickAdjustedExpiresAt DEFAULT_CACHE_SETTINGS 1000
        ⟨"r1", "lit", "ctx", ⟨"en", none⟩, 0, 0⟩ = 1801000 ∧
    min (0 : Nat)
        (1000 + DEFAULT_CACHE_SETTINGS.quickTtlMinutes * 60 * 1000) = 0 ∧
    quickPayloadAt
        (writeQuickToCache DEFAULT_CACHE_SETTINGS 1000 "x"
          ⟨"r1", "lit", "ctx", ⟨"en", none⟩, 0, 0⟩ none [])
        (computeCacheKey "x" none) =
      some ⟨"r1", "lit", "ctx", ⟨"en", none⟩, 0, 1801000⟩ := by
  refine ⟨by decide, by decide, ?_⟩
  decide

/-- Claim C3, amended: when the payload requests a nonzero expiresAt,
the stored expiry is the minimum of the requested expiry and
now plus quickTtlMinutes minutes; a zero (falsy) requested expiry gets
the policy expiry as-is.  The effective quickTtlMinutes is always
within 5..180 and defaults to 30; and the clamped payload is what the
write leaves in the store (when nothing is evicted). -/
theorem quick_ttl_clamp_amended :
    (∀ (settings : CacheSettings) (now : Nat) (resp : QuickExplainResponse),
        resp.expiresAt ≠ 0 →
        quickAdjustedExpiresAt settings now resp =
          min resp.expiresAt (now + settings.quickTtlMinutes * 60 * 1000)) ∧
    (∀ (settings : CacheSettings) (now : Nat) (resp : QuickExplainResponse),
        resp.expiresAt = 0 →
        quickAdjustedExpiresAt settings now resp =
          now + settings.quickTtlMinutes * 60 * 1000) ∧
    (∀ raw : Option RawCacheSettings,
        5 ≤ (normalizeSettings raw).quickTtlMinutes ∧
        (normalizeSettings raw).quickTtlMinutes ≤ 180) ∧
    (normalizeSettings none).quickTtlMinutes = 30 ∧
    (∀ (settings : CacheSettings) (now : Nat) (text : String)
        (resp : QuickExplainResponse) (pid : Option String)
        (store : RecordStore),
        store.length < settings.maxEntries →
        quickPayloadAt
            (writeQuickToCache settings now text resp pid store)
            (computeCacheKey text pid) =
          some { resp with
                 expiresAt := quickAdjustedExpiresAt settings now resp }) := by
  refine ⟨?_, ?_, ?_, rfl, ?_⟩
  · intro settings now resp h
    unfold quickAdjustedExpiresAt
    rw [if_pos h]
  · intro settings now resp h
    unfold quickAdjustedExpiresAt
    rw [if_neg (by simp [h])]
  · intro raw
    cases raw with
    | none => simp [normalizeSettings, DEFAULT_CACHE_SETTINGS]
    | some r =>
      cases hr : r.quickTtlMinutes with
      | none => simp [normalizeSettings, hr, DEFAULT_CACHE_SETTINGS]
      | some v =>
        by_cases hv : (0 : Int) < v
        · simp only [normalizeSettings, hr, hv, if_true, if_pos hv]
          omega
        · simp [normalizeSettings, hr, hv, DEFAULT_CACHE_SETTINGS]
  · intro settings now text resp pid store h
    have hw : (writeRecord store
        { key := computeCacheKey text pid,
          quick := some { resp with
            expiresAt := quickAdjustedExpiresAt settings now resp },
          deep := none, profileId := pid, updatedAt := now }).length ≤
        settings.maxEntries :=
      le_trans (writeRecord_length_le store _) (by omega)
    show quickPayloadAt
        (trimRecords settings.maxEntries
          (writeRecord store
            { key := computeCacheKey text pid,
              quick := some { resp with
                expiresAt := quickAdjustedExpiresAt settings now resp },
              deep := none, profileId := pid, updatedAt := now }))
        (computeCacheKey text pid) = _
    rw [trimRecords_of_le hw]
    unfold quickPayloadAt
    rw [show findRecord (computeCacheKey text pid)
          (writeRecord store
            { key := computeCacheKey text pid,
              quick := some { resp with
                expiresAt := quickAdjustedExpiresAt settings now resp },
              deep := none, profileId := pid, updatedAt := now }) =
        some { key := computeCacheKey text pid,
               quick := some { resp with
                 expiresAt := quickAdjustedExpiresAt settings now resp },
               deep := none, profileId := pid, updatedAt := now } from
      findRecord_writeRecord store
        { key := computeCacheKey text pid,
          quick := some { resp with
            expiresAt := quickAdjustedExpiresAt settings now resp },
          deep := none, profileId := pid, updatedAt := now }]
    rfl

/-- Witness for the amended C3: a nonzero requested expiry is clamped
by the policy expiry, and an out-of-range stored TTL (600 minutes) is
clamped into the 5..180 band. -/
theorem quick_ttl_clamp_amended_witness :
    quickAdjustedExpiresAt DEFAULT_CACHE_SETTINGS 1000
        ⟨"r1", "lit", "ctx", ⟨"en", none⟩, 0, 5000000⟩ =
      min 5000000
        (1000 + DEFAULT_CACHE_SETTINGS.quickTtlMinutes * 60 * 1000) ∧
    5 ≤ (normalizeSettings (some ⟨some 600, none⟩)).quickTtlMinutes ∧
    (normalizeSettings (some ⟨some 600, none⟩)).quickTtlMinutes ≤ 180 ∧
    quickPayloadAt
        (writeQuickToCache DEFAULT_CACHE_SETTINGS 1000 "x"
          ⟨"r1", "lit", "ctx", ⟨"en", none⟩, 0, 5000000⟩ none [])
        (computeCacheKey "x" none) =
      some { (⟨"r1", "lit", "ctx", ⟨"en", none⟩, 0, 5000000⟩ :
               QuickExplainResponse) with
             expiresAt := quickAdjustedExpiresAt DEFAULT_CACHE_SETTINGS 1000
               ⟨"r1", "lit", "ctx", ⟨"en", none⟩, 0, 5000000⟩ } :=
  ⟨quick_ttl_clamp_amended.1 DEFAULT_CACHE_SETTINGS 1000 _ (by decide),
   (quick_ttl_clamp_amended.2.2.1 (some ⟨some 600, none⟩)).1,
   (quick_ttl_clamp_amended.2.2.1 (some ⟨some 600, none⟩)).2,
   quick_ttl_clamp_amended.2.2.2.2 DEFAULT_CACHE_SETTINGS 1000 "x" _ none []
     (by decide)⟩

/- ===================== claim C6 ====================== -/

/-- Counterexample to C6 as stated: both write paths put a record
holding only their own payload kind, so writing a deep payload under a
key erases the quick payload stored there (db.put replaces the whole
record). -/
theorem record_payload_coexistence_counterexample :
    quickPayloadAt
        (writeQuickToCache DEFAULT_CACHE_SETTINGS 1000 "yo"
          ⟨"r1", "lit", "ctx", ⟨"en", none⟩, 0, 5000⟩ none [])
        (computeCacheKey "yo" none) =
      some ⟨"r1", "lit", "ctx", ⟨"en", none⟩, 0, 5000⟩ ∧
    quickPayloadAt
        (writeDeepToCache DEFAULT_CACHE_SETTINGS 2000 "yo" (Json.num 7) none
          (writeQuickToCache DEFAULT_CACHE_SETTINGS 1000 "yo"
            ⟨"r1", "lit", "ctx", ⟨"en", none⟩, 0, 5000⟩ none []))
        (computeCacheKey "yo" none) = none ∧
    readDeepFromCache
        (writeDeepToCache DEFAULT_CACHE_SETTINGS 2000 "yo" (Json.num 7) none
          (writeQuickToCache DEFAULT_CACHE_SETTINGS 1000 "yo"
            ⟨"r1", "lit", "ctx", ⟨"en", none⟩, 0, 5000⟩ none []))
        "yo" none = some (Json.num 7) := by
  refine ⟨?_, ?_, ?_⟩ <;> decide

/-- Claim C6, amended: each write replaces the whole record under the
key — after a deep write the record holds the deep payload and no
quick payload, and after a quick write it holds the clamped quick
payload and no deep payload, whichever payload was there before
(stated for writes that do not overflow the entry budget). -/
theorem cache_writes_replace_whole_record (settings : CacheSettings)
    (now : Nat) (text : String) (pid : Option String) (store : RecordStore) :
    (∀ dj : Json, store.length < settings.maxEntries →
        findRecord (computeCacheKey text pid)
            (writeDeepToCache settings now text dj pid store) =
          some { key := computeCacheKey text pid, quick := none,
                 deep := some dj, profileId := pid, updatedAt := now }) ∧
    (∀ resp : QuickExplainResponse, store.length < settings.maxEntries →
        findRecord (computeCacheKey text pid)
            (writeQuickToCache settings now text resp pid store) =
          some { key := computeCacheKey text pid,
                 quick := some { resp with
                   expiresAt := quickAdjustedExpiresAt settings now resp },
                 deep := none, profileId := pid, updatedAt := now }) := by
  constructor
  · intro dj h
    have hw : (writeRecord store
        { key := computeCacheKey text pid, quick := none, deep := some dj,
          profileId := pid, updatedAt := now }).length ≤
        settings.maxEntries :=
      le_trans (writeRecord_length_le store _) (by omega)
    show findRecord (computeCacheKey text pid)
        (trimRecords settings.maxEntries
          (writeRecord store
            { key := computeCacheKey text pid, quick := none,
              deep := some dj, profileId := pid, updatedAt := now })) = _
    rw [trimRecords_of_le hw]
    exact findRecord_writeRecord store
      { key := computeCacheKey text pid, quick := none,
        deep := some dj, profileId := pid, updatedAt := now }
  · intro resp h
    have hw : (writeRecord store
        { key := computeCacheKey text pid,
          quick := some { resp with
            expiresAt := quickAdjustedExpiresAt settings now resp },
          deep := none, profileId := pid, updatedAt := now }).length ≤
        settings.maxEntries :=
      le_trans (writeRecord_length_le store _) (by omega)
    show findRecord (computeCacheKey text pid)
        (trimRecords settings.maxEntries
          (writeRecord store
            { key := computeCacheKey text pid,
              quick := some { resp with
                expiresAt := quickAdjustedExpiresAt settings now resp },
              deep := none, profileId := pid, updatedAt := now })) = _
    rw [trimRecords_of_le hw]
    exact findRecord_writeRecord store
      { key := computeCacheKey text pid,
        quick := some { resp with
          expiresAt := quickAdjustedExpiresAt settings now resp },
        deep := none, profileId := pid, updatedAt := now }

/-- Witness for the amended C6: a deep write onto a record that held a
quick payload leaves a record with only the deep payload. -/
theorem cache_writes_replace_whole_record_witness :
    findRecord (computeCacheKey "yo" none)
        (writeDeepToCache DEFAULT_CACHE_SETTINGS 2000 "yo" (Json.num 7) none
          [⟨computeCacheKey "yo" none,
            some ⟨"r1", "lit", "ctx", ⟨"en", none⟩, 0, 5000⟩,
            none, none, 1000⟩]) =
      some { key := computeCacheKey "yo" none, quick := none,
             deep := some (Json.num 7), profileId := none,
             updatedAt := 2000 } :=
  (cache_writes_replace_whole_record DEFAULT_CACHE_SETTINGS 2000 "yo" none
    [⟨computeCacheKey "yo" none,
      some ⟨"r1", "lit", "ctx", ⟨"en", none⟩, 0, 5000⟩,
      none, none, 1000⟩]).1 (Json.num 7) (by decide)

/- ===================== stream lemmas ====================== -/

theorem findSep_add_two_le : ∀ (l : List Char) (i : Nat),
    findSep l = some i → i + 2 ≤ l.length := by
  intro l
  induction l with
  | nil => intro i h; simp [findSep] at h
  | cons a tl ih =>
    intro i h
    cases tl with
    | nil => simp [findSep] at h
    | cons b rest =>
      by_cases hab : a = '\n' ∧ b = '\n'
      · rw [findSep, if_pos hab] at h
        simp at h
        simp [← h]
      · rw [findSep, if_neg hab] at h
        cases hfs : findSep (b :: rest) with
        | none => rw [hfs] at h; simp at h
        | some j =>
          rw [hfs] at h
          simp at h
          have hj := ih j hfs
          simp at hj
          simp [← h]
          omega

theorem processSseLoop_one (fuel : Nat) (buffer : List Char) :
    processSseLoop (fuel + 1) buffer =
      match findSep buffer with
      | none => ([], Except.ok buffer)
      | some i =>
        let rawEvent := jsTrim ⟨buffer.take i⟩
        let rest := buffer.drop (i + 2)
        let step : Except String (Option SseEvent) :=
          if rawEvent = "" then .ok none else handleSseEvent rawEvent
        match step with
        | .error e => ([], .error e)
        | .ok act =>
          let (evs, res) := processSseLoop fuel rest
          (match act with
           | none => evs
           | some ev => ev :: evs, res) := rfl

theorem processSseLoop_succ : ∀ (f : Nat) (buffer : List Char),
    buffer.length ≤ f →
    processSseLoop (f + 1) buffer = processSseLoop f buffer := by
  intro f
  induction f with
  | zero =>
    intro buffer h
    have hb : buffer = [] := List.length_eq_zero.mp (Nat.le_zero.mp h)
    subst hb
    rfl
  | succ f ih =>
    intro buffer h
    rw [processSseLoop_one (f + 1) buffer, processSseLoop_one f buffer]
    cases hfs : findSep buffer with
    | none => rfl
    | some i =>
      have hb := findSep_add_two_le buffer i hfs
      have hrest : (buffer.drop (i + 2)).length ≤ f := by
        simp only [List.length_drop]
        omega
      simp only [ih (buffer.drop (i + 2)) hrest]

/-- Fuel adequacy: the loop fuel processSseBuffer supplies (the buffer
length) is enough — any larger fuel decodes identically, because every
iteration consumes at least the two separator characters. -/
theorem processSseLoop_adequate (buffer : List Char) :
    ∀ f, buffer.length ≤ f →
      processSseLoop f buffer = processSseBuffer buffer := by
  intro f hf
  unfold processSseBuffer
  induction f, hf using Nat.le_induction with
  | base => rfl
  | succ f hf ih => rw [processSseLoop_succ f buffer hf, ih]

theorem progressNotifs_no_ready (rid : String) (evs : List SseEvent) :
    ∀ n ∈ progressNotifs rid evs, ∀ j, n ≠ TabNotif.ready j := by
  intro n hn j
  unfold progressNotifs at hn
  obtain ⟨ev, _, hev⟩ := List.mem_filterMap.mp hn
  cases ev with
  | progress p =>
    simp only [Option.some.injEq] at hev
    rw [← hev]
    simp
  | complete p => simp at hev

theorem streamDeepExplain_request (keys : ApiKeys) (rid : String)
    (o : DeepFetchOutcome) :
    (streamDeepExplain keys rid o).1 =
      { url := SERVER_BASE ++ "/explain/deep",
        headers := deepRequestHeaders keys } := by
  cases o with
  | httpError st => rfl
  | noBody => rfl
  | stream chunks =>
    rcases hfc : feedChunks chunks [] with ⟨evs, res⟩
    cases res with
    | error e => simp [streamDeepExplain, hfc]
    | ok buf =>
      cases hlc : lastComplete evs with
      | none => simp [streamDeepExplain, hfc, hlc]
      | some j =>
        by_cases hj : jsTruthyJson j = true
        · simp [streamDeepExplain, hfc, hlc, hj]
        · simp [streamDeepExplain, hfc, hlc, hj]

/- ===================== claim C7 ====================== -/

/-- Counterexample to C7 as stated: the specified input carries no
blank-line record separator, so the decoder dispatches no event at all
— the whole input stays in the carry-over buffer (shown here for the
unsplit feed and for the split at offset 14); the claim demands exactly
one complete event. -/
theorem split_decode_counterexample :
    (sseSplitFeed sseBareRecord 14).1 = [] ∧
    (feedChunks [sseBareRecord] []).1 = [] ∧
    (feedChunks [sseBareRecord] []).2 = Except.ok sseBareRecord.data := by
  refine ⟨?_, ?_, ?_⟩ <;> decide

set_option maxHeartbeats 2000000 in
/-- Claim C7, amended: once the record is terminated by the blank-line
separator, feeding it split at any byte offset across two feed calls
yields exactly one complete event carrying the parsed object with field
a equal to 1 — the same event sequence as feeding the whole input at
once. -/
theorem split_decode_amended : ∀ i, i ≤ sseCompleteRecord.length →
    sseSplitFeed sseCompleteRecord i =
      ([SseEvent.complete
          (Json.obj (JsonFields.cons "a" (Json.num 1) JsonFields.nil))],
        Except.ok []) ∧
    (sseSplitFeed sseCompleteRecord i).1 =
      (feedChunks [sseCompleteRecord] []).1 := by
  decide

/-- Witness for the amended C7 at the split offset 7. -/
theorem split_decode_amended_witness :
    sseSplitFeed sseCompleteRecord 7 =
      ([SseEvent.complete
          (Json.obj (JsonFields.cons "a" (Json.num 1) JsonFields.nil))],
        Except.ok []) ∧
    (sseSplitFeed sseCompleteRecord 7).1 =
      (feedChunks [sseCompleteRecord] []).1 :=
  split_decode_amended 7 (by decide)

/- ===================== claim C8 ====================== -/

/-- Claim C8: a deep-explain stream that is exhausted without a
complete event having been decoded makes the operation fail with the
stream-incomplete error: no payload is returned, no DEEP_EXPLAIN_READY
notification is delivered, and (on the surrounding cache-miss path)
nothing is written to the cache. -/
theorem stream_incomplete_fails_without_effects
    (keys : ApiKeys) (rid : String) (chunks : List String)
    (settings : CacheSettings) (now : Nat) (store : RecordStore)
    (text : String) (pid : Option String)
    (evs : List SseEvent) (buf : List Char)
    (hrun : feedChunks chunks [] = (evs, Except.ok buf))
    (hnone : lastComplete evs = none) :
    (streamDeepExplain keys rid (.stream chunks)).2.2 =
      Except.error "Deep explain stream ended without completion event" ∧
    (∀ n ∈ (streamDeepExplain keys rid (.stream chunks)).2.1,
        ∀ j, n ≠ TabNotif.ready j) ∧
    (readDeepFromCache store text pid = none →
      (processDeepExplain settings now store keys text pid rid
          (.stream chunks)).2.1 = store ∧
      (∀ n ∈ (processDeepExplain settings now store keys text pid rid
          (.stream chunks)).2.2.1, ∀ j, n ≠ TabNotif.ready j)) := by
  have hs : streamDeepExplain keys rid (DeepFetchOutcome.stream chunks) =
      ({ url := SERVER_BASE ++ "/explain/deep",
         headers := deepRequestHeaders keys },
       progressNotifs rid evs,
       Except.error "Deep explain stream ended without completion event") := by
    simp only [streamDeepExplain, hrun, hnone]
  refine ⟨by rw [hs], ?_, ?_⟩
  · rw [hs]
    exact progressNotifs_no_ready rid evs
  · intro hmiss
    have hp : processDeepExplain settings now store keys text pid rid
        (DeepFetchOutcome.stream chunks) =
        (Except.error "Deep explain stream ended without completion event",
         store,
         progressNotifs rid evs ++
           [TabNotif.failed rid "deep"
             "Deep explain stream ended without completion event"],
         some { url := SERVER_BASE ++ "/explain/deep",
                headers := deepRequestHeaders keys }) := by
      simp only [processDeepExplain, hmiss, hs]
    rw [hp]
    refine ⟨rfl, ?_⟩
    intro n hn j
    rcases List.mem_append.mp hn with h1 | h2
    · exact progressNotifs_no_ready rid evs n h1 j
    · simp at h2
      rw [h2]
      simp

/-- Witness for C8: a stream consisting of a single progress record
and nothing else fails with the stream-incomplete error and leaves the
store empty. -/
theorem stream_incomplete_fails_without_effects_witness :
    (streamDeepExplain (getApiKeys none) "r1"
        (.stream ["event: progress\ndata: \x7b\"a\":1\x7d\n\n"])).2.2 =
      Except.error "Deep explain stream ended without completion event" ∧
    (processDeepExplain DEFAULT_CACHE_SETTINGS 0 [] (getApiKeys none)
        "yo" none "r1"
        (.stream ["event: progress\ndata: \x7b\"a\":1\x7d\n\n"])).2.1 = [] :=
  have H := stream_incomplete_fails_without_effects (getApiKeys none) "r1"
    ["event: progress\ndata: \x7b\"a\":1\x7d\n\n"]
    DEFAULT_CACHE_SETTINGS 0 [] "yo" none
    [SseEvent.progress
      (Json.obj (JsonFields.cons "a" (Json.num 1) JsonFields.nil))]
    [] (by decide) (by decide)
  ⟨H.1, (H.2.2 (by decide)).1⟩

/- ===================== claim C9 ====================== -/

/-- Counterexample to C9 as stated: with no API key configured and a
cache miss, the deep path does not refuse — it still issues the POST to
the explanation server (merely omitting the key header) and its failure
is the stream error, not a missing-credential refusal. -/
theorem missing_credential_deep_counterexample :
    (processDeepExplain DEFAULT_CACHE_SETTINGS 0 [] (getApiKeys none)
        "yo" none "r1" (DeepFetchOutcome.stream [])).2.2.2 =
      some { url := SERVER_BASE ++ "/explain/deep",
             headers := [("Content-Type", "application/json"),
                         ("X-OpenAI-Base", DEFAULT_OPENAI_BASE_URL)] } ∧
    (processDeepExplain DEFAULT_CACHE_SETTINGS 0 [] (getApiKeys none)
        "yo" none "r1" (DeepFetchOutcome.stream [])).1 ≠
      Except.error "Missing OpenAI API key" ∧
    jsTruthyStr (getApiKeys none).openaiKey = false := by
  refine ⟨?_, ?_, ?_⟩ <;> decide

/-- Claim C9, amended: only the quick path fails fast — a quick request
that misses the cache while the resolved key is falsy answers the
missing-key error without calling the completion endpoint; a deep
request that misses the cache always issues the network request to the
explanation server, attaching the local key only as an optional
header. -/
theorem missing_credential_amended :
    (∀ (settings : CacheSettings) (now : Nat) (store : RecordStore)
        (payload : ExplainRequestPayload) (apid : Option String)
        (keys : ApiKeys) (net : Except String QuickExplainResponse),
        (readQuickFromCache now store payload.subtitleText
            (payload.profileId.orElse fun _ => apid)).1 = none →
        jsTruthyStr keys.openaiKey = false →
        processQuickExplain settings now store payload apid keys net =
          ({ ok := false, cached := false, response := none,
             error := some "Missing OpenAI API key" }, false, store)) ∧
    (∀ (settings : CacheSettings) (now : Nat) (store : RecordStore)
        (keys : ApiKeys) (text : String) (pid : Option String)
        (rid : String) (outcome : DeepFetchOutcome),
        readDeepFromCache store text pid = none →
        (processDeepExplain settings now store keys text pid rid
            outcome).2.2.2 =
          some { url := SERVER_BASE ++ "/explain/deep",
                 headers := deepRequestHeaders keys }) := by
  constructor
  · intro settings now store payload apid keys net hq hk
    simp only [processQuickExplain, hq, hk]
    simp
  · intro settings now store keys text pid rid outcome hmiss
    have hreq := streamDeepExplain_request keys rid outcome
    rcases hsd : streamDeepExplain keys rid outcome with ⟨req, notifs, res⟩
    rw [hsd] at hreq
    cases res with
    | ok j =>
      simp only [processDeepExplain, hmiss, hsd]
      exact congrArg some hreq
    | error e =>
      simp only [processDeepExplain, hmiss, hsd]
      exact congrArg some hreq

/-- Witness for the amended C9: with no stored key the quick path
refuses without a network call, while the deep path still issues the
request. -/
theorem missing_credential_amended_witness :
    processQuickExplain DEFAULT_CACHE_SETTINGS 0 []
        ⟨"r1", "yo", none, 0, none, ⟨"en", none⟩⟩ none (getApiKeys none)
        (.error "never called") =
      ({ ok := false, cached := false, response := none,
         error := some "Missing OpenAI API key" }, false, []) ∧
    (processDeepExplain DEFAULT_CACHE_SETTINGS 0 [] (getApiKeys none)
        "yo" none "r1" (DeepFetchOutcome.stream [])).2.2.2 =
      some { url := SERVER_BASE ++ "/explain/deep",
             headers := deepRequestHeaders (getApiKeys none) } :=
  ⟨missing_credential_amended.1 DEFAULT_CACHE_SETTINGS 0 []
      ⟨"r1", "yo", none, 0, none, ⟨"en", none⟩⟩ none (getApiKeys none)
      (.error "never called") (by decide) (by decide),
   missing_credential_amended.2 DEFAULT_CACHE_SETTINGS 0 [] (getApiKeys none)
      "yo" none "r1" (DeepFetchOutcome.stream []) (by decide)⟩

end LinguaLens
